import Mathlib

/-!
Verification of the Winston domain-registration gateway.

A shallow embedding of the purchase pipeline and its supporting components,
translated from the TypeScript source:

* `src/lib/homograph.ts` — label safety filter (`analyzeLabelSafety`,
  `isAsciiLdh`, `hasInvisibleChars`, `hasMixedScripts`, punycode validation);
* `src/providers/porkbun.ts` — the JSON (Porkbun) driver
  (`checkAvailability`, `quote`, `register`, `setNameservers`, `applyRecords`);
* `src/routes/domains.ts` — the `POST /buy` handler;
* the idempotency service (`IdempotencyStore`: `begin`/`commit`/`fail`,
  per-key mutex `acquire`/`release`) and `src/db/repo.ts`.

Strings are modelled as `List Char` (Unicode scalar values); money as `ℚ`
(the source uses JS numbers carrying two-decimal USD amounts); external I/O
(registrar API, database) is modelled by an environment of call outcomes and
an effect trace.
-/

/-- Characters of a string literal, used to write concrete labels. -/
def strL (s : String) : List Char := s.data

/-- JS `String.prototype.toLowerCase` restricted to ASCII: `A`–`Z` map to
`a`–`z`, all other code points are left unchanged (the full Unicode simple
lowercase mapping on non-ASCII points is not modelled; no claim here depends
on it). -/
def jsToLowerChar (c : Char) : Char :=
  if 0x41 ≤ c.toNat ∧ c.toNat ≤ 0x5A then Char.ofNat (c.toNat + 0x20) else c

/-- Pointwise lowercasing of a string, JS `s.toLowerCase()`. -/
def jsToLower (l : List Char) : List Char := l.map jsToLowerChar

/-- White-space code points stripped by JS `String.prototype.trim`. -/
def isJsWhitespace (c : Char) : Bool :=
  c.toNat = 0x20 || c.toNat = 0x09 || c.toNat = 0x0A || c.toNat = 0x0B ||
  c.toNat = 0x0C || c.toNat = 0x0D || c.toNat = 0xA0 || c.toNat = 0x1680 ||
  (0x2000 ≤ c.toNat && c.toNat ≤ 0x200A) || c.toNat = 0x2028 ||
  c.toNat = 0x2029 || c.toNat = 0x202F || c.toNat = 0x205F ||
  c.toNat = 0x3000 || c.toNat = 0xFEFF

/-- JS `s.trim()`: drop leading and trailing whitespace. -/
def jsTrim (l : List Char) : List Char :=
  ((l.dropWhile isJsWhitespace).reverse.dropWhile isJsWhitespace).reverse

/-- The normalization `s.toLowerCase().trim()` used by `analyzeLabelSafety`
(homograph.ts line 148) and `normalizeDomain` (utils.ts). -/
def jsLowerTrim (l : List Char) : List Char := jsTrim (jsToLower l)

/-- `a`–`z`. -/
def isLowerAlphaChar (c : Char) : Bool := 0x61 ≤ c.toNat && c.toNat ≤ 0x7A

/-- `0`–`9`. -/
def isDigitChar (c : Char) : Bool := 0x30 ≤ c.toNat && c.toNat ≤ 0x39

/-- `[a-z0-9]`. -/
def isLowerAlnumChar (c : Char) : Bool := isLowerAlphaChar c || isDigitChar c

/-- `[a-z0-9-]`, the character class of the ASCII-LDH regex in homograph.ts. -/
def isLdhChar (c : Char) : Bool := isLowerAlnumChar c || c == '-'

/-- `isAsciiLdh` from homograph.ts lines 24–47: length 1..63, no leading or
trailing hyphen, every character in `[a-z0-9-]`, and not entirely numeric. -/
def isAsciiLdh (label : List Char) : Bool :=
  if label.length < 1 ∨ 63 < label.length then false
  else if label.head? = some '-' ∨ label.getLast? = some '-' then false
  else if ¬ (label.all isLdhChar = true) then false
  else if label.all isDigitChar then false
  else true

/-- The invisible code points rejected by homograph.ts
(`INVISIBLE_CODEPOINTS`). -/
def isInvisibleCp (c : Nat) : Bool :=
  c = 0x200B || c = 0x200C || c = 0x200D || c = 0x2060 || c = 0xFEFF

/-- `hasInvisibleChars` from homograph.ts lines 52–60, over the decoded
code-point sequence. -/
def hasInvisibleChars (s : List Nat) : Bool := s.any isInvisibleCp

/-- Principal code-point blocks of the Latin script (approximation of the
source's `\p{Script=Latin}` regex; ASCII letters included). -/
def isLatinCp (c : Nat) : Bool :=
  (0x41 ≤ c && c ≤ 0x5A) || (0x61 ≤ c && c ≤ 0x7A) ||
  (0xC0 ≤ c && c ≤ 0x24F && !(c = 0xD7) && !(c = 0xF7)) ||
  (0x1E00 ≤ c && c ≤ 0x1EFF) || (0x2C60 ≤ c && c ≤ 0x2C7F) ||
  (0xA720 ≤ c && c ≤ 0xA7FF)

/-- Principal blocks of the Cyrillic script. -/
def isCyrillicCp (c : Nat) : Bool :=
  (0x400 ≤ c && c ≤ 0x52F) || (0x2DE0 ≤ c && c ≤ 0x2DFF) ||
  (0xA640 ≤ c && c ≤ 0xA69F) || (0x1C80 ≤ c && c ≤ 0x1C8F)

/-- Principal blocks of the Greek script. -/
def isGreekCp (c : Nat) : Bool :=
  (0x370 ≤ c && c ≤ 0x3FF && !(0x374 ≤ c && c ≤ 0x375) && !(c = 0x37E)) ||
  (0x1F00 ≤ c && c ≤ 0x1FFF)

/-- Principal blocks of the Arabic script. -/
def isArabicCp (c : Nat) : Bool :=
  (0x600 ≤ c && c ≤ 0x6FF) || (0x750 ≤ c && c ≤ 0x77F) ||
  (0x8A0 ≤ c && c ≤ 0x8FF) || (0xFB50 ≤ c && c ≤ 0xFDFF) ||
  (0xFE70 ≤ c && c ≤ 0xFEFC)

/-- Principal blocks of the Hebrew script. -/
def isHebrewCp (c : Nat) : Bool :=
  (0x590 ≤ c && c ≤ 0x5FF) || (0xFB1D ≤ c && c ≤ 0xFB4F)

/-- Principal blocks of the Han script. -/
def isHanCp (c : Nat) : Bool :=
  (0x3400 ≤ c && c ≤ 0x4DBF) || (0x4E00 ≤ c && c ≤ 0x9FFF) ||
  (0xF900 ≤ c && c ≤ 0xFAD9)

/-- Principal blocks of the Hiragana script. -/
def isHiraganaCp (c : Nat) : Bool :=
  (0x3041 ≤ c && c ≤ 0x3096) || (0x309D ≤ c && c ≤ 0x309F)

/-- Principal blocks of the Katakana script. -/
def isKatakanaCp (c : Nat) : Bool :=
  (0x30A1 ≤ c && c ≤ 0x30FA) || (0x30FD ≤ c && c ≤ 0x30FF) ||
  (0x31F0 ≤ c && c ≤ 0x31FF) || (0xFF66 ≤ c && c ≤ 0xFF9D)

/-- Which of the eight accepted scripts occur in the string (one flag per
script regex probed by `hasMixedScripts`). -/
def scriptFlags (s : List Nat) : List Bool :=
  [s.any isLatinCp, s.any isCyrillicCp, s.any isGreekCp, s.any isArabicCp,
   s.any isHebrewCp, s.any isHanCp, s.any isHiraganaCp, s.any isKatakanaCp]

/-- `hasMixedScripts` from homograph.ts lines 66–95: ASCII-only strings are
skipped; otherwise the label is mixed when at least two of the eight script
regexes match. -/
def hasMixedScripts (s : List Nat) : Bool :=
  if 1 ≤ s.length && s.all (fun c => c ≤ 0x7F) then false
  else 2 ≤ (scriptFlags s).count true

/-- `isPunycode` from homograph.ts line 100: the label starts with `xn--`. -/
def isPunycodeLabel (l : List Char) : Bool :=
  List.isPrefixOf (strL "xn--") l

/-! ### Punycode codec (RFC 3492 as implemented by punycode.js)

Constants: base 36, tmin 1, tmax 26, skew 38, damp 700, initial bias 72,
initial n 128. 32-bit overflow guards are kept on the decoder (they make
adversarial inputs invalid); they are omitted on the encoder, where they
cannot trigger for label-sized inputs. -/

/-- JS `maxInt` = 2^31 - 1 used by punycode.js overflow guards. -/
def pcMaxInt : Nat := 2147483647

/-- `digitToBasic` (flag 0): digits 0..25 map to `a`..`z`, 26..35 to
`0`..`9`. -/
def pcDigitToBasic (d : Nat) : Char :=
  if d < 26 then Char.ofNat (d + 0x61) else Char.ofNat (d + 22)

/-- `basicToDigit`: `0`-`9` → 26..35, `A`-`Z`/`a`-`z` → 0..25, else the
out-of-range sentinel 36. -/
def pcBasicToDigit (cp : Nat) : Nat :=
  if 0x30 ≤ cp ∧ cp < 0x3A then cp - 0x16
  else if 0x41 ≤ cp ∧ cp < 0x5B then cp - 0x41
  else if 0x61 ≤ cp ∧ cp < 0x7B then cp - 0x61
  else 36

/-- Division loop inside `adapt`; the fuel (first argument) bounds the
number of iterations and is always supplied large enough (the loop divides
`delta` by 35 each round, so it runs fewer than `delta + 1` times). -/
def pcAdaptLoop : Nat → Nat → Nat → Nat
  | 0, delta, k => k + 36 * delta / (delta + 38)
  | fuel + 1, delta, k =>
    if 455 < delta then pcAdaptLoop fuel (delta / 35) (k + 36)
    else k + 36 * delta / (delta + 38)

/-- `adapt(delta, numPoints, firstTime)` from punycode.js. -/
def pcAdapt (delta numPoints : Nat) (firstTime : Bool) : Nat :=
  let d1 := if firstTime then delta / 700 else delta / 2
  pcAdaptLoop (d1 + d1 / numPoints + 1) (d1 + d1 / numPoints) 0

/-- The threshold `t` for digit position `k` under the current `bias`. -/
def pcThreshold (bias k : Nat) : Nat :=
  if k ≤ bias then 1 else if bias + 26 ≤ k then 26 else k - bias

theorem pcThreshold_pos (bias k : Nat) : 1 ≤ pcThreshold bias k := by
  unfold pcThreshold; split <;> [omega; skip]; split <;> omega

theorem pcThreshold_le (bias k : Nat) : pcThreshold bias k ≤ 26 := by
  unfold pcThreshold; split <;> [omega; skip]; split <;> omega

/-- Variable-length-integer emission in `encode`: generalized variable-length
digits for the value `q`, starting at digit position `k`. The fuel bounds the
digit count and is always supplied large enough (`q` strictly decreases each
round, so `q + 1` digits suffice). -/
def pcEncodeVarIntF : Nat → Nat → Nat → Nat → List Char
  | 0, _, q, _ => [pcDigitToBasic q]
  | fuel + 1, bias, q, k =>
    if q < pcThreshold bias k then [pcDigitToBasic q]
    else
      pcDigitToBasic
          (pcThreshold bias k +
            (q - pcThreshold bias k) % (36 - pcThreshold bias k)) ::
        pcEncodeVarIntF fuel bias
          ((q - pcThreshold bias k) / (36 - pcThreshold bias k)) (k + 36)

/-- Variable-length-integer emission with sufficient fuel. -/
def pcEncodeVarInt (bias q k : Nat) : List Char :=
  pcEncodeVarIntF (q + 1) bias q k

/-- The smallest code point `≥ n` in the input (`m` in the encoder's main
loop), `none` when there is none (the case JS reports as overflow). -/
def pcMinGE (cps : List Nat) (n : Nat) : Option Nat :=
  cps.foldl
    (fun acc c =>
      if n ≤ c then
        match acc with
        | none => some c
        | some m => some (min m c)
      else acc)
    none

/-- One pass of the encoder's inner `for` loop over the whole input; state is
(output, delta, bias, handled count). -/
def pcEncodeInner (basicLength n : Nat) (cps : List Nat)
    (st : List Char × Nat × Nat × Nat) : List Char × Nat × Nat × Nat :=
  cps.foldl
    (fun st c =>
      let (out, delta, bias, handled) := st
      if c < n then (out, delta + 1, bias, handled)
      else if c = n then
        (out ++ pcEncodeVarInt bias delta 36, 0,
         pcAdapt delta (handled + 1) (handled == basicLength), handled + 1)
      else st)
    st

/-- The encoder's main `while` loop; the fuel bounds the number of outer
iterations (each successful iteration handles at least one code point, so
`|input| + 1` is always enough; exhaustion models the JS overflow error). -/
def pcEncodeLoop (basicLength : Nat) (cps : List Nat) :
    Nat → Nat → Nat → Nat → Nat → List Char → Option (List Char)
  | 0, _, _, _, _, _ => none
  | fuel + 1, n, delta, bias, handled, out =>
    if cps.length ≤ handled then some out
    else
      match pcMinGE cps n with
      | none => none
      | some m =>
        let delta1 := delta + (m - n) * (handled + 1)
        let st := pcEncodeInner basicLength m cps (out, delta1, bias, handled)
        pcEncodeLoop basicLength cps fuel (m + 1) (st.2.1 + 1) st.2.2.1
          st.2.2.2 st.1

/-- punycode.js `encode` over a sequence of code points. -/
def punycodeEncode (cps : List Nat) : Option (List Char) :=
  let basicOut := (cps.filter (fun c => c < 0x80)).map Char.ofNat
  let out0 := if 0 < basicOut.length then basicOut ++ ['-'] else basicOut
  pcEncodeLoop basicOut.length cps (cps.length + 1) 128 0 72 basicOut.length
    out0

/-- Variable-length-integer consumption in `decode`, with the JS overflow
guards; returns the accumulated `i` and the unconsumed input. -/
def pcDecodeVarInt (bias : Nat) :
    List Char → Nat → Nat → Nat → Option (Nat × List Char)
  | [], _, _, _ => none
  | c :: rest, i, w, k =>
    let digit := pcBasicToDigit c.toNat
    if 36 ≤ digit then none
    else if (pcMaxInt - i) / w < digit then none
    else
      let i1 := i + digit * w
      let t := pcThreshold bias k
      if digit < t then some (i1, rest)
      else if pcMaxInt / (36 - t) < w then none
      else pcDecodeVarInt bias rest i1 (w * (36 - t)) (k + 36)

/-- JS `output.splice(idx, 0, val)`. -/
def pcListSplice (output : List Nat) (idx val : Nat) : List Nat :=
  output.take idx ++ val :: output.drop idx

/-- The decoder's main loop (fuel as for the encoder: each iteration consumes
at least one input character). -/
def pcDecodeLoop :
    Nat → List Char → Nat → Nat → Nat → List Nat → Option (List Nat)
  | 0, _, _, _, _, _ => none
  | _ + 1, [], _, _, _, output => some output
  | fuel + 1, c :: rest, i, n, bias, output =>
    match pcDecodeVarInt bias (c :: rest) i 1 36 with
    | none => none
    | some (i1, rest1) =>
      let out := output.length + 1
      let bias1 := pcAdapt (i1 - i) out (i == 0)
      if pcMaxInt - n < i1 / out then none
      else
        let n1 := n + i1 / out
        let idx := i1 % out
        pcDecodeLoop fuel rest1 (idx + 1) n1 bias1 (pcListSplice output idx n1)

/-- Index of the last `-` in the input, 0 when there is none (JS
`lastIndexOf` clamped as in `decode`). -/
def pcLastDelim (l : List Char) : Nat :=
  (l.foldl (fun (st : Nat × Nat) c =>
      (if c = '-' then st.2 else st.1, st.2 + 1)) (0, 0)).1

/-- punycode.js `decode`: copy the basic portion (rejecting non-ASCII there),
then run the main loop on the remainder. `none` models a thrown
`RangeError`. -/
def punycodeDecode (input : List Char) : Option (List Nat) :=
  let basic := pcLastDelim input
  let pre := input.take basic
  if pre.any (fun c => 0x80 ≤ c.toNat) then none
  else
    let output := pre.map Char.toNat
    let start := if 0 < basic then basic + 1 else 0
    pcDecodeLoop (input.length + 1) (input.drop start) 0 128 72 output

/-- `isValidPunycode` from homograph.ts lines 107–119: the label starts with
`xn--` and the portion after it decodes. -/
def isValidPunycode (l : List Char) : Bool :=
  isPunycodeLabel l && (punycodeDecode (l.drop 4)).isSome

/-- Result type of the label safety filter. -/
structure LabelSafetyResult where
  safe : Bool
  reasons : List String
deriving DecidableEq, Repr

/-- `analyzeLabelSafety` from homograph.ts lines 141–211: normalize
(lowercase, trim), check length and hyphen position, accept ASCII-LDH
immediately, otherwise require `allowUnicode`, punycode form, decodability,
and finally check the decoded code points for invisibles and mixed
scripts. -/
def analyzeLabelSafety (label : List Char) (allowUnicode : Bool) :
    LabelSafetyResult :=
  let normalized := jsLowerTrim label
  if normalized.length < 1 ∨ 63 < normalized.length then
    ⟨false, ["InvalidLength"]⟩
  else if normalized.head? = some '-' ∨ normalized.getLast? = some '-' then
    ⟨false, ["InvalidHyphenPosition"]⟩
  else if isAsciiLdh normalized then ⟨true, []⟩
  else if !allowUnicode then ⟨false, ["NonASCIINotAllowed"]⟩
  else if !(isPunycodeLabel normalized) then
    ⟨false, ["UnicodeMustUsePunycode"]⟩
  else if !(isValidPunycode normalized) then ⟨false, ["InvalidPunycode"]⟩
  else
    match punycodeDecode (normalized.drop 4) with
    | none => ⟨false, ["PunycodeDcodeFailed"]⟩
    | some decoded =>
      let reasons :=
        (if hasInvisibleChars decoded then ["HasInvisible"] else []) ++
        (if hasMixedScripts decoded then ["MixedScripts"] else [])
      if 0 < reasons.length then ⟨false, reasons⟩ else ⟨true, []⟩

/-- The regex of claim C5, `^[a-z0-9](?:[a-z0-9-]*[a-z0-9])?$`, transcribed
from the spec (spec-side definition, for comparison with the source-side
`isAsciiLdh`). -/
def matchesSafeLdh (l : List Char) : Bool :=
  match l with
  | [] => false
  | c :: cs =>
    isLowerAlnumChar c &&
    (cs.isEmpty ||
      (cs.all isLdhChar &&
        (match cs.getLast? with
         | some d => isLowerAlnumChar d
         | none => false)))

theorem ldhChar_not_dash_alnum (c : Char) (h : isLdhChar c = true)
    (hne : c ≠ '-') : isLowerAlnumChar c = true := by
  rcases Bool.or_eq_true _ _ |>.mp h with h1 | h1
  · exact h1
  · exact absurd (beq_iff_eq.mp h1) hne

theorem isAsciiLdh_facts (l : List Char) (h : isAsciiLdh l = true) :
    1 ≤ l.length ∧ l.length ≤ 63 ∧ l.head? ≠ some '-' ∧
    l.getLast? ≠ some '-' ∧ l.all isLdhChar = true ∧
    l.all isDigitChar = false := by
  unfold isAsciiLdh at h
  split at h
  · exact absurd h (by simp)
  next h1 =>
  split at h
  · exact absurd h (by simp)
  next h2 =>
  split at h
  · exact absurd h (by simp)
  next h3 =>
  split at h
  · exact absurd h (by simp)
  next h4 =>
  push_neg at h1 h2
  refine ⟨by omega, by omega, h2.1, h2.2, by simpa using h3, by simpa using h4⟩

theorem isAsciiLdh_matchesSafeLdh (l : List Char) (h : isAsciiLdh l = true) :
    matchesSafeLdh l = true := by
  obtain ⟨hlen, -, hhead, hlast, hall, -⟩ := isAsciiLdh_facts l h
  rw [List.all_eq_true] at hall
  match l with
  | [] => simp at hlen
  | c :: cs =>
    have hc : isLowerAlnumChar c = true := by
      refine ldhChar_not_dash_alnum c (hall c (by simp)) ?_
      intro hEq; exact hhead (by simp [hEq])
    match cs with
    | [] => simp [matchesSafeLdh, hc]
    | d :: ds =>
      have hne : (d :: ds) ≠ [] := by simp
      have hlastEq : (c :: d :: ds).getLast? = (d :: ds).getLast? := rfl
      have hgl : (d :: ds).getLast? = some ((d :: ds).getLast hne) :=
        List.getLast?_eq_getLast _ hne
      have hmem : (d :: ds).getLast hne ∈ d :: ds := List.getLast_mem hne
      have healnum : isLowerAlnumChar ((d :: ds).getLast hne) = true := by
        refine ldhChar_not_dash_alnum _
          (hall _ (List.mem_cons_of_mem c hmem)) ?_
        intro hEq
        exact hlast (by rw [hlastEq, hgl, hEq])
      have hcsall : (d :: ds).all isLdhChar = true := by
        rw [List.all_eq_true]
        intro x hx
        exact hall x (List.mem_cons_of_mem c hx)
      simp [matchesSafeLdh, hc, hcsall, hgl, healnum]

/-- Claim C5 as written fails only in that the filter trims the label before
matching: safety of the normalized (lowercased **and trimmed**) label implies
the claimed regex/length/numeric facts for the normalized label. -/
theorem c5_amended (l : List Char)
    (h : (analyzeLabelSafety l false).safe = true) :
    matchesSafeLdh (jsLowerTrim l) = true ∧
    1 ≤ (jsLowerTrim l).length ∧ (jsLowerTrim l).length ≤ 63 ∧
    (jsLowerTrim l).all isDigitChar = false := by
  unfold analyzeLabelSafety at h
  by_cases h1 : (jsLowerTrim l).length < 1 ∨ 63 < (jsLowerTrim l).length
  · rw [if_pos h1] at h; simp at h
  · rw [if_neg h1] at h
    by_cases h2 : (jsLowerTrim l).head? = some '-' ∨
        (jsLowerTrim l).getLast? = some '-'
    · rw [if_pos h2] at h; simp at h
    · rw [if_neg h2] at h
      by_cases h3 : isAsciiLdh (jsLowerTrim l) = true
      · obtain ⟨-, -, -, -, -, hnum⟩ := isAsciiLdh_facts _ h3
        push_neg at h1
        exact ⟨isAsciiLdh_matchesSafeLdh _ h3, by omega, by omega, hnum⟩
      · rw [if_neg h3] at h
        simp at h

/-- Claim C5 as literally stated is false: `analyzeLabelSafety` also trims,
so the label `"apple "` (trailing space) is judged safe although its merely
lowercased form does not match `^[a-z0-9](?:[a-z0-9-]*[a-z0-9])?$`. -/
theorem c5_counterexample :
    (analyzeLabelSafety (strL "apple ") false).safe = true ∧
    matchesSafeLdh (jsToLower (strL "apple ")) = false := by decide

/-- Witness instantiating `c5_amended` at the label `"apple"`. -/
theorem c5_amended_witness :
    matchesSafeLdh (jsLowerTrim (strL "apple")) = true ∧
    1 ≤ (jsLowerTrim (strL "apple")).length ∧
    (jsLowerTrim (strL "apple")).length ≤ 63 ∧
    (jsLowerTrim (strL "apple")).all isDigitChar = false :=
  c5_amended (strL "apple") (by decide)

theorem ldhChar_toNat (c : Char) (h : isLdhChar c = true) :
    (0x61 ≤ c.toNat ∧ c.toNat ≤ 0x7A) ∨ (0x30 ≤ c.toNat ∧ c.toNat ≤ 0x39) ∨
    c.toNat = 0x2D := by
  rcases Bool.or_eq_true _ _ ▸ h with h1 | h1
  · rcases Bool.or_eq_true _ _ ▸ h1 with h2 | h2
    · left
      simpa [isLowerAlphaChar, Bool.and_eq_true, decide_eq_true_iff] using h2
    · right; left
      simpa [isDigitChar, Bool.and_eq_true, decide_eq_true_iff] using h2
  · right; right
    have : c = '-' := beq_iff_eq.mp h1
    subst this; rfl

theorem ldhChar_toLower_fixed (c : Char) (h : isLdhChar c = true) :
    jsToLowerChar c = c := by
  have := ldhChar_toNat c h
  unfold jsToLowerChar
  rw [if_neg (by omega)]

theorem ldhChar_not_whitespace (c : Char) (h : isLdhChar c = true) :
    isJsWhitespace c = false := by
  have := ldhChar_toNat c h
  simp only [isJsWhitespace]
  simp only [Bool.or_eq_false_iff, Bool.and_eq_false_iff,
    decide_eq_false_iff_not]
  omega

theorem dropWhile_of_all_false {p : Char → Bool} (l : List Char)
    (h : ∀ c ∈ l, p c = false) : l.dropWhile p = l := by
  cases l with
  | nil => rfl
  | cons c t => simp [List.dropWhile, h c (List.mem_cons_self c t)]

theorem jsLowerTrim_ldh_fixed (l : List Char)
    (h : ∀ c ∈ l, isLdhChar c = true) : jsLowerTrim l = l := by
  have hmap : jsToLower l = l := by
    unfold jsToLower
    induction l with
    | nil => rfl
    | cons c t ih =>
      simp only [List.map_cons]
      rw [ldhChar_toLower_fixed c (h c (List.mem_cons_self c t)),
        ih (fun x hx => h x (List.mem_cons_of_mem c hx))]
  unfold jsLowerTrim jsTrim
  rw [hmap]
  rw [dropWhile_of_all_false l (fun c hc => ldhChar_not_whitespace c (h c hc))]
  rw [dropWhile_of_all_false l.reverse
    (fun c hc => ldhChar_not_whitespace c (h c (List.mem_reverse.mp hc)))]
  exact List.reverse_reverse l

/-- Claim C6 amended: any nonempty lowercase-alphanumeric payload `s` with
`4 + |s| ≤ 63` makes `"xn--" ++ s` safe under `allowUnicode = true` via the
ASCII-LDH fast path, regardless of the invisible or script content of the
decoded string — in particular this covers every canonical punycode encoding
of a string of non-basic code points, so the invisible/mixed-script checks of
`analyzeLabelSafety` never fire on such labels. -/
theorem c6_amended (s : List Char) (hne : s ≠ [])
    (hs : s.all isLowerAlnumChar = true) (hlen : 4 + s.length ≤ 63) :
    analyzeLabelSafety (strL "xn--" ++ s) true = ⟨true, []⟩ := by
  rw [List.all_eq_true] at hs
  have hldh : ∀ c ∈ strL "xn--" ++ s, isLdhChar c = true := by
    intro c hc
    rw [List.mem_append] at hc
    rcases hc with hc | hc
    · fin_cases hc <;> decide
    · exact Bool.or_eq_true _ _ ▸ Or.inl (hs c hc)
  have hfix := jsLowerTrim_ldh_fixed _ hldh
  have hlen2 : (strL "xn--" ++ s).length = 4 + s.length := by
    simp [strL]
    omega
  have hlast : (strL "xn--" ++ s).getLast? = s.getLast? := by
    rcases List.exists_cons_of_ne_nil hne with ⟨d, ds, rfl⟩
    simp [strL, List.getLast?_append]
  obtain ⟨e, he⟩ : ∃ e, s.getLast? = some e :=
    ⟨s.getLast hne, List.getLast?_eq_getLast _ hne⟩
  have hemem : e ∈ s := by
    rw [List.getLast?_eq_getLast _ hne] at he
    injection he with h1
    exact h1 ▸ List.getLast_mem hne
  have healnum : isLowerAlnumChar e = true := hs e hemem
  have hedash : e ≠ '-' := by
    intro hEq
    rw [hEq] at healnum
    exact absurd healnum (by decide)
  have hldhAll : (strL "xn--" ++ s).all isLdhChar = true := by
    rw [List.all_eq_true]; exact hldh
  have hnotnum : (strL "xn--" ++ s).all isDigitChar = false := by
    rw [Bool.eq_false_iff]
    intro hcon
    rw [List.all_eq_true] at hcon
    have := hcon 'x' (by simp [strL])
    exact absurd this (by decide)
  have hascii : isAsciiLdh (strL "xn--" ++ s) = true := by
    unfold isAsciiLdh
    rw [if_neg (by omega), if_neg ?_, if_neg (by simp [hldhAll]),
      if_neg (by simp [hnotnum])]
    intro hcon
    rcases hcon with hcon | hcon
    · simp [strL] at hcon
    · rw [hlast, he] at hcon
      exact hedash (by injection hcon)
  unfold analyzeLabelSafety
  rw [hfix]
  rw [if_neg (by omega), if_neg ?_, if_pos hascii]
  intro hcon
  rcases hcon with hcon | hcon
  · simp [strL] at hcon
  · rw [hlast, he] at hcon
    exact hedash (by injection hcon)

/-- Claim C6 as stated is false: for `u = ⟨U+200B⟩` (zero-width space, an
invisible code point) the punycode label `"xn--" ++ encode(u)` is accepted as
safe with `allowUnicode = true` (the ASCII-LDH fast path never examines the
decoded content), although `u` contains an invisible code point, so the
claimed equivalence fails in the right-to-left direction at this `u`. -/
theorem c6_counterexample :
    (punycodeEncode [0x200B]).isSome = true ∧
    (analyzeLabelSafety (strL "xn--" ++ (punycodeEncode [0x200B]).getD [])
        true).safe = true ∧
    hasInvisibleChars [0x200B] = true := by decide

/-- Witness instantiating `c6_amended` at the payload `"zug"` (the encoding
of `⟨U+200B⟩`). -/
theorem c6_amended_witness :
    analyzeLabelSafety (strL "xn--" ++ strL "zug") true = ⟨true, []⟩ :=
  c6_amended (strL "zug") (by decide) (by decide) (by decide)

/-! ### Porkbun driver (src/providers/porkbun.ts)

API calls are abstracted by an environment giving each call's outcome; the
trace records which endpoints were invoked. The pricing cache is threaded as
`PbCache` (`some pm` = warm cache, as after a fetch within the TTL). -/

/-- A `PorkbunError` (code and message). -/
structure PbError where
  code : String
  message : String
deriving DecidableEq, Repr

/-- The endpoints of porkbun.ts (`ENDPOINTS`). -/
inductive PbEndpoint
  | availability
  | pricing
  | register
  | status
  | updateNs
  | dnsCreate
  | dnsDelete
deriving DecidableEq, Repr

/-- Whether an endpoint mutates registrar state (`/domain/create`,
`/domain/updateNs`, `/dns/create`, `/dns/delete`); availability, pricing and
status lookups are reads. -/
def PbEndpoint.mutating : PbEndpoint → Bool
  | .register | .updateNs | .dnsCreate | .dnsDelete => true
  | _ => false

/-- A pricing cache entry (`PricingCacheEntry` minus the timestamp, which is
folded into cache validity). -/
structure PbPricingEntry where
  price : ℚ
  premium : Bool
  privacyPrice : ℚ
deriving DecidableEq, Repr

/-- Pricing map: TLD → entry. -/
abbrev PbPricing := List (String × PbPricingEntry)

/-- Cache state: `some pm` is a warm cache (entries within the 300 s TTL). -/
abbrev PbCache := Option PbPricing

/-- Outcomes of the upstream API calls (`callPorkbun` after its retry loop)
and of `randomUUID`. `availApi` gives the parsed availability per domain;
`registerApi` gives `(orderId, amount)` on success. -/
structure PbEnv where
  pricingApi : Except PbError PbPricing
  availApi : String → Except PbError Bool
  registerApi : Except PbError (String × ℚ)
  updateNsApi : Except PbError Unit
  dnsCreateApi : Nat → Except PbError Unit
  uuid : String

/-- JS `parseFloat(x.toFixed(2))`: round to two decimals (decimal
idealization of the double rounding). -/
def round2 (q : ℚ) : ℚ := (Int.floor (q * 100 + 1 / 2) : ℚ) / 100

/-- Index of the last `.`, if any. -/
def lastDotIdx? (l : List Char) : Option Nat :=
  (l.foldl (fun (st : Option Nat × Nat) c =>
    (if c = '.' then some st.2 else st.1, st.2 + 1)) (none, 0)).1

/-- The part after the last dot (`split('.')`, last element); the whole
string when there is no dot. -/
def afterLastDot (l : List Char) : List Char :=
  match lastDotIdx? l with
  | none => l
  | some i => l.drop (i + 1)

/-- The part before the last dot; the whole string when there is no dot. -/
def beforeLastDot (l : List Char) : List Char :=
  match lastDotIdx? l with
  | none => l
  | some i => l.take i

/-- `normalizeDomain` (porkbun.ts and utils.ts): lowercase and trim. -/
def normalizeDomain (d : String) : String := ⟨jsLowerTrim d.data⟩

/-- `getTldFromDomain`: last dot-separated segment, lowercased. -/
def getTldFromDomain (d : String) : String := ⟨jsToLower (afterLastDot d.data)⟩

/-- `getPricing` (porkbun.ts lines 291–327): return the warm cache or fetch
`/pricing/get` and install the parsed map. -/
def pbGetPricing (env : PbEnv) (cache : PbCache) :
    Except PbError PbPricing × PbCache × List PbEndpoint :=
  match cache with
  | some pm => (.ok pm, some pm, [])
  | none =>
    match env.pricingApi with
    | .ok pm => (.ok pm, some pm, [.pricing])
    | .error e => (.error e, none, [.pricing])

/-- Availability result row. -/
structure DomainAvailability where
  domain : String
  available : Bool
  price_usd : ℚ
  premium : Bool
deriving DecidableEq, Repr

/-- One per-domain availability probe inside `checkAvailability`
(porkbun.ts lines 356–387): on success, price from the pricing map (12.0
when the entry is absent or its price is falsy) plus the 0.18 ICANN fee; on
**any** error the entry is absorbed as unavailable with price 0. -/
def pbAvailProbe (env : PbEnv) (pm : PbPricing) (d : String) :
    DomainAvailability :=
  match env.availApi d with
  | .ok avail =>
    let entry := List.lookup (getTldFromDomain d) pm
    let basePrice :=
      match entry with
      | some e => if e.price = 0 then 12 else e.price
      | none => 12
    let premium := (entry.map (fun e => e.premium)).getD false
    { domain := d, available := avail,
      price_usd := round2 (basePrice + 18 / 100), premium := premium }
  | .error _ =>
    { domain := d, available := false, price_usd := 0, premium := false }

/-- `checkAvailability` (porkbun.ts lines 341–391): normalize, load pricing,
probe each domain (the source fans out with concurrency 5; relative order of
the probes is unspecified and the result list preserves input order). -/
def pbCheckAvailability (env : PbEnv) (cache : PbCache)
    (domains : List String) :
    Except PbError (List DomainAvailability) × PbCache × List PbEndpoint :=
  if domains = [] then (.ok [], cache, [])
  else
    let normalized := domains.map normalizeDomain
    match pbGetPricing env cache with
    | (.error e, cache1, tr) => (.error e, cache1, tr)
    | (.ok pm, cache1, tr) =>
      (.ok (normalized.map (pbAvailProbe env pm)), cache1,
       tr ++ normalized.map (fun _ => PbEndpoint.availability))

/-- Quote result. -/
structure DomainQuote where
  domain : String
  registration_price_usd : ℚ
  icann_fee_usd : ℚ
  total_usd : ℚ
  privacy_price_usd : ℚ
  premium : Bool
deriving DecidableEq, Repr

/-- `quote` (porkbun.ts lines 396–425): pricing lookup by TLD
(`TLD_NOT_SUPPORTED` when absent), then
`total = base*years + 0.18*years + (privacy ? privacyPrice : 0)`. -/
def pbQuote (env : PbEnv) (cache : PbCache) (domain : String) (years : Nat)
    (privacy : Bool) : Except PbError DomainQuote × PbCache × List PbEndpoint :=
  let nd := normalizeDomain domain
  let tld := getTldFromDomain nd
  match pbGetPricing env cache with
  | (.error e, cache1, tr) => (.error e, cache1, tr)
  | (.ok pm, cache1, tr) =>
    match List.lookup tld pm with
    | none =>
      (.error ⟨"TLD_NOT_SUPPORTED", "Pricing not available for TLD: " ++ tld⟩,
       cache1, tr)
    | some entry =>
      let basePrice := entry.price
      let privacyPrice := if privacy then entry.privacyPrice else 0
      let registrationPrice := basePrice * (years : ℚ)
      let icannFee := 18 / 100 * (years : ℚ)
      let total := registrationPrice + icannFee + privacyPrice
      (.ok { domain := nd,
             registration_price_usd := round2 registrationPrice,
             icann_fee_usd := round2 icannFee,
             total_usd := round2 total,
             privacy_price_usd := privacyPrice,
             premium := entry.premium }, cache1, tr)

/-- Registration result. -/
structure RegistrationResult where
  order_id : String
  charged_total_usd : ℚ
  registrar : String
  domain : String
  success : Bool
  message : String
deriving DecidableEq, Repr

/-- `register` (porkbun.ts lines 430–508): re-quote, check availability
(unavailable → failure result), then either the DRY_RUN branch (synthesized
`PB-DRYRUN-<uuid>` order, quoted total, **no** `/domain/create` call) or the
real call (a `PorkbunError` there is caught and reported as a failure
result). -/
def pbRegister (dryRun : Bool) (env : PbEnv) (cache : PbCache)
    (domain : String) (years : Nat) (privacy : Bool) :
    Except PbError RegistrationResult × PbCache × List PbEndpoint :=
  let nd := normalizeDomain domain
  match pbQuote env cache nd years privacy with
  | (.error e, cache1, tr1) => (.error e, cache1, tr1)
  | (.ok cq, cache1, tr1) =>
    match pbCheckAvailability env cache1 [nd] with
    | (.error e, cache2, tr2) => (.error e, cache2, tr1 ++ tr2)
    | (.ok avs, cache2, tr2) =>
      let available := match avs.head? with
        | some a => a.available
        | none => false
      if ¬ available = true then
        (.ok { order_id := "", charged_total_usd := 0, registrar := "porkbun",
               domain := nd, success := false,
               message := "Domain is not available for registration" },
         cache2, tr1 ++ tr2)
      else if dryRun then
        (.ok { order_id := "PB-DRYRUN-" ++ env.uuid,
               charged_total_usd := cq.total_usd, registrar := "porkbun",
               domain := nd, success := true,
               message := "Domain registration simulated (DRY_RUN) - Order ID: PB-DRYRUN-"
                 ++ env.uuid },
         cache2, tr1 ++ tr2)
      else
        match env.registerApi with
        | .ok (oid, amt) =>
          (.ok { order_id := oid, charged_total_usd := amt,
                 registrar := "porkbun", domain := nd, success := true,
                 message := "Domain registered successfully" },
           cache2, tr1 ++ tr2 ++ [.register])
        | .error e =>
          (.ok { order_id := "", charged_total_usd := 0,
                 registrar := "porkbun", domain := nd, success := false,
                 message := e.message },
           cache2, tr1 ++ tr2 ++ [.register])

/-- `setNameservers` (porkbun.ts lines 570–603): DRY_RUN returns before any
call **and before the count validation**; otherwise counts outside 2..13 are
`INVALID_NAMESERVER_COUNT`, and the `/domain/updateNs` outcome is
propagated. -/
def pbSetNameservers (dryRun : Bool) (env : PbEnv) (domain : String)
    (nameservers : List String) : Except PbError Unit × List PbEndpoint :=
  if dryRun then (.ok (), [])
  else if nameservers.length < 2 ∨ 13 < nameservers.length then
    (.error ⟨"INVALID_NAMESERVER_COUNT", "Nameservers must be between 2 and 13"⟩,
     [])
  else
    match env.updateNsApi with
    | .ok _ => (.ok (), [.updateNs])
    | .error e => (.error e, [.updateNs])

/-- A DNS record (dns/templates.ts `DnsRecord`). -/
structure DnsRecord where
  type : String
  name : String
  value : String
  ttl : Nat
  prio : Option Nat
deriving DecidableEq, Repr

/-- `applyRecords` (porkbun.ts lines 610–665): DRY_RUN returns before any
call; otherwise one `/dns/create` per record (`Promise.allSettled`), and any
failure raises `DNS_APPLY_PARTIAL_FAILURE`. -/
def pbApplyRecords (dryRun : Bool) (env : PbEnv) (domain : String)
    (records : List DnsRecord) : Except PbError Unit × List PbEndpoint :=
  if dryRun then (.ok (), [])
  else
    let results := (List.range records.length).map env.dnsCreateApi
    let failures := results.filter (fun r =>
      match r with
      | .error _ => true
      | .ok _ => false)
    let tr := records.map (fun _ => PbEndpoint.dnsCreate)
    if 0 < failures.length then
      (.error ⟨"DNS_APPLY_PARTIAL_FAILURE", "Failed to apply some DNS records"⟩,
       tr)
    else (.ok (), tr)

theorem pbGetPricing_reads_only (env : PbEnv) (cache : PbCache) :
    ((pbGetPricing env cache).2.2).all (fun ep => !ep.mutating) = true := by
  unfold pbGetPricing
  cases cache with
  | some pm => rfl
  | none => cases env.pricingApi <;> rfl

/-- Claim C7: with dry-run enabled, `register` issues no mutating endpoint
call and (when the quote and availability probes let it reach the point where
a real registration would be issued) returns a synthesized success whose
order id is `"PB-DRYRUN-"` followed by the generated UUID; `setNameservers`
and `applyRecords` return success without issuing any call at all. -/
theorem c7_dry_run (env : PbEnv) (cache : PbCache) (domain : String)
    (years : Nat) (privacy : Bool) (ns : List String)
    (records : List DnsRecord) (pm : PbPricing) (entry : PbPricingEntry)
    (trp : List PbEndpoint)
    (hd : normalizeDomain domain = domain)
    (hpm : pbGetPricing env cache = (.ok pm, some pm, trp))
    (htld : List.lookup (getTldFromDomain domain) pm = some entry)
    (hav : env.availApi domain = .ok true) :
    (∃ r tr, pbRegister true env cache domain years privacy =
        (.ok r, some pm, tr) ∧ r.success = true ∧
        r.order_id = "PB-DRYRUN-" ++ env.uuid ∧
        tr.all (fun ep => !ep.mutating) = true) ∧
    pbSetNameservers true env domain ns = (.ok (), []) ∧
    pbApplyRecords true env domain records = (.ok (), []) := by
  have htr : trp.all (fun ep => !ep.mutating) = true := by
    have h := pbGetPricing_reads_only env cache
    rw [hpm] at h
    exact h
  refine ⟨?_, rfl, rfl⟩
  have hq : pbQuote env cache domain years privacy =
      (.ok { domain := domain,
             registration_price_usd := round2 (entry.price * (years : ℚ)),
             icann_fee_usd := round2 (18 / 100 * (years : ℚ)),
             total_usd := round2 (entry.price * (years : ℚ) +
               18 / 100 * (years : ℚ) +
               (if privacy then entry.privacyPrice else 0)),
             privacy_price_usd := if privacy then entry.privacyPrice else 0,
             premium := entry.premium }, some pm, trp) := by
    simp only [pbQuote, hd, hpm, htld]
  have hca : pbCheckAvailability env (some pm) [domain] =
      (.ok [pbAvailProbe env pm domain], some pm, [.availability]) := by
    simp [pbCheckAvailability, pbGetPricing, hd]
  have hrow : (pbAvailProbe env pm domain).available = true := by
    simp [pbAvailProbe, hav]
  have hstep : pbRegister true env cache domain years privacy =
      (.ok { order_id := "PB-DRYRUN-" ++ env.uuid,
             charged_total_usd := round2 (entry.price * (years : ℚ) +
               18 / 100 * (years : ℚ) +
               (if privacy then entry.privacyPrice else 0)),
             registrar := "porkbun", domain := domain, success := true,
             message :=
               "Domain registration simulated (DRY_RUN) - Order ID: PB-DRYRUN-"
                 ++ env.uuid },
       some pm, trp ++ [.availability]) := by
    simp only [pbRegister, hd, hq, hca, List.head?_cons, hrow]
    simp
  refine ⟨_, trp ++ [.availability], hstep, rfl, rfl, ?_⟩
  rw [List.all_append, Bool.and_eq_true]
  exact ⟨htr, rfl⟩

/-- Concrete pricing map used by the C7 witness. -/
def pmC7 : PbPricing := [("com", ⟨97/10, false, 0⟩)]

/-- Concrete dry-run environment used by the C7 witness. -/
def envC7 : PbEnv :=
  { pricingApi := .ok pmC7
    availApi := fun _ => .ok true
    registerApi := .ok ("PB-123", 10)
    updateNsApi := .ok ()
    dnsCreateApi := fun _ => .ok ()
    uuid := "3f2c" }

/-- Witness instantiating `c7_dry_run` on a concrete environment. -/
theorem c7_dry_run_witness :
    (∃ r tr, pbRegister true envC7 none "example.com" 1 true =
        (.ok r, some pmC7, tr) ∧ r.success = true ∧
        r.order_id = "PB-DRYRUN-" ++ envC7.uuid ∧
        tr.all (fun ep => !ep.mutating) = true) ∧
    pbSetNameservers true envC7 "example.com" ["ns1.example.net"] =
      (.ok (), []) ∧
    pbApplyRecords true envC7 "example.com"
      [⟨"A", "@", "93.184.216.34", 300, none⟩] = (.ok (), []) :=
  c7_dry_run envC7 none "example.com" 1 true ["ns1.example.net"]
    [⟨"A", "@", "93.184.216.34", 300, none⟩] pmC7 ⟨97/10, false, 0⟩
    [.pricing] (by decide) rfl rfl rfl

/-- Concrete environment whose availability probe fails upstream, used for
claim C9. -/
def envC9 : PbEnv :=
  { pricingApi := .ok [("com", ⟨97/10, false, 0⟩)]
    availApi := fun _ => .error ⟨"HTTP_ERROR", "HTTP 500: Internal Server Error"⟩
    registerApi := .ok ("PB-123", 10)
    updateNsApi := .ok ()
    dnsCreateApi := fun _ => .ok ()
    uuid := "3f2c" }

/-- Claim C9 as stated is false: when the upstream availability call for a
domain fails (here with `HTTP_ERROR`), `checkAvailability` does **not**
surface the error — it succeeds and absorbs the domain into the result list
as unavailable with price 0. -/
theorem c9_counterexample :
    envC9.availApi "example.com" =
      .error ⟨"HTTP_ERROR", "HTTP 500: Internal Server Error"⟩ ∧
    (pbCheckAvailability envC9 none ["example.com"]).1 =
      .ok [{ domain := "example.com", available := false, price_usd := 0,
             premium := false }] := by
  exact ⟨rfl, rfl⟩

/-- Claim C9 amended: driver error conditions from `quote`, `setNameservers`
and `applyRecords` propagate to the caller, but an upstream error during a
per-domain availability probe inside `checkAvailability` is absorbed into
the result list as `{available: false, price_usd: 0, premium: false}`. -/
theorem c9_amended (env : PbEnv) (cache : PbCache) (d : String)
    (pm : PbPricing) (trp : List PbEndpoint) (e : PbError)
    (hd : normalizeDomain d = d)
    (hpm : pbGetPricing env cache = (.ok pm, some pm, trp))
    (hav : env.availApi d = .error e) :
    (pbCheckAvailability env cache [d]).1 =
      .ok [{ domain := d, available := false, price_usd := 0,
             premium := false }] ∧
    (∀ e2, env.pricingApi = .error e2 →
      (pbQuote env none d 1 true).1 = .error e2) ∧
    (∀ ns : List String, ns.length < 2 ∨ 13 < ns.length →
      (pbSetNameservers false env d ns).1 =
        .error ⟨"INVALID_NAMESERVER_COUNT",
                "Nameservers must be between 2 and 13"⟩) ∧
    (∀ (records : List DnsRecord) (i : Nat) (e3 : PbError),
      i < records.length → env.dnsCreateApi i = .error e3 →
      (pbApplyRecords false env d records).1 =
        .error ⟨"DNS_APPLY_PARTIAL_FAILURE",
                "Failed to apply some DNS records"⟩) := by
  refine ⟨?_, ?_, ?_, ?_⟩
  · simp [pbCheckAvailability, hd, hpm, pbAvailProbe, hav]
  · intro e2 he2
    simp [pbQuote, pbGetPricing, he2]
  · intro ns hns
    simp only [pbSetNameservers]
    rw [if_neg (by simp), if_pos hns]
  · intro records i e3 hi hcall
    have hmem : (Except.error e3 : Except PbError Unit) ∈
        (List.range records.length).map env.dnsCreateApi := by
      exact List.mem_map.mpr ⟨i, List.mem_range.mpr hi, hcall⟩
    have hfail : (Except.error e3 : Except PbError Unit) ∈
        ((List.range records.length).map env.dnsCreateApi).filter (fun r =>
          match r with
          | .error _ => true
          | .ok _ => false) :=
      List.mem_filter.mpr ⟨hmem, rfl⟩
    have hpos : 0 < (((List.range records.length).map env.dnsCreateApi).filter
        (fun r =>
          match r with
          | .error _ => true
          | .ok _ => false)).length :=
      List.length_pos.mpr (List.ne_nil_of_mem hfail)
    simp only [pbApplyRecords]
    rw [if_neg (by simp), if_pos hpos]

/-- Witness instantiating `c9_amended` on the concrete environment. -/
theorem c9_amended_witness :
    (pbCheckAvailability envC9 none ["example.com"]).1 =
      .ok [{ domain := "example.com", available := false, price_usd := 0,
             premium := false }] ∧
    (∀ e2, envC9.pricingApi = .error e2 →
      (pbQuote envC9 none "example.com" 1 true).1 = .error e2) ∧
    (∀ ns : List String, ns.length < 2 ∨ 13 < ns.length →
      (pbSetNameservers false envC9 "example.com" ns).1 =
        .error ⟨"INVALID_NAMESERVER_COUNT",
                "Nameservers must be between 2 and 13"⟩) ∧
    (∀ (records : List DnsRecord) (i : Nat) (e3 : PbError),
      i < records.length → envC9.dnsCreateApi i = .error e3 →
      (pbApplyRecords false envC9 "example.com" records).1 =
        .error ⟨"DNS_APPLY_PARTIAL_FAILURE",
                "Failed to apply some DNS records"⟩) :=
  c9_amended envC9 none "example.com" [("com", ⟨97/10, false, 0⟩)] [.pricing]
    ⟨"HTTP_ERROR", "HTTP 500: Internal Server Error"⟩ (by decide) rfl rfl

/-! ### POST /buy handler (src/routes/domains.ts lines 138–414)

Database and provider calls are abstracted by `BuyEnv` (each await point's
outcome); the handler returns the HTTP outcome and the ordered trace of side
effects. Thrown driver/DB errors reach the Express error middleware, which
maps them to a `(status, name)` pair; `HttpErr` carries that mapped form.
The SHA-256 request digest is modelled as the canonical tuple itself
(an injective abstraction of `stableDigest`; the spec treats collisions as
negligible). -/

/-- `splitDomain` from utils.ts: normalize, then split at the last dot
(label, tld); no dot gives an empty tld. -/
def splitDomain (domain : String) : List Char × List Char :=
  let n := jsLowerTrim domain.data
  match lastDotIdx? n with
  | none => (n, [])
  | some i => (n.take i, n.drop (i + 1))

/-- `isTldAllowed` from config.ts: empty allowlist permits every TLD. -/
def isTldAllowed (allowlist : List String) (tld : String) : Bool :=
  allowlist.isEmpty || allowlist.contains tld

/-- Server configuration relevant to `POST /buy`. -/
structure BuyConfig where
  maxPerTxn : ℚ
  maxDaily : ℚ
  allowlist : List String
deriving Repr

/-- The request digest of `stableDigest` (lib/idem): SHA-256 over the
canonical JSON of `{domain, years, whois_privacy, quoted_total_usd}`,
modelled as the canonical tuple. -/
structure Digest where
  domain : String
  years : Nat
  whois_privacy : Bool
  quoted_total_usd : ℚ
deriving DecidableEq, Repr

/-- `stableDigest` on the fields the route hashes. -/
def stableDigest (domain : String) (years : Nat) (privacy : Bool)
    (quoted : ℚ) : Digest :=
  ⟨domain, years, privacy, quoted⟩

/-- The response body built by the route on success. -/
structure BuyResponse where
  order_id : String
  charged_total_usd : ℚ
  registrar : String
  nameserver_mode : String
  dns_template_id : Option String
  domainId : String
deriving DecidableEq, Repr

/-- A non-expired `Idem` row as returned by `repo.idemBegin` (digest and the
parsed stored response). -/
structure IdemEntry where
  digest : Digest
  response : BuyResponse
deriving DecidableEq, Repr

/-- An error as mapped by the error middleware: HTTP status and error
name/code. -/
structure HttpErr where
  status : Nat
  name : String
deriving DecidableEq, Repr

/-- A provider quote as consumed by the route (`total_usd`, `premium`). -/
structure BuyQuote where
  total_usd : ℚ
  premium : Bool
deriving DecidableEq, Repr

/-- Outcomes of the route's await points. `providerName` records which
driver `DEFAULT_PROVIDER` selected; the call outcomes below abstract that
driver's behavior, and the route never consults the name itself. -/
structure BuyEnv where
  providerName : String
  premiumQuote : Except HttpErr BuyQuote
  todaySpent : ℚ
  beginEntry : Option IdemEntry
  serverQuote : Except HttpErr BuyQuote
  registerResult : Except HttpErr RegistrationResult
  setNsResult : Except HttpErr Unit
  applyRecordsResult : Except HttpErr Unit
  user : Option String
  domainRecordId : String

/-- Built-in DNS templates from dns/templates.ts (`templates`). -/
def templates : List (String × List DnsRecord) :=
  [("web-basic",
    [⟨"A", "@", "93.184.216.34", 300, none⟩,
     ⟨"CNAME", "www", "@", 300, none⟩]),
   ("api-spa",
    [⟨"A", "@", "93.184.216.34", 300, none⟩,
     ⟨"CNAME", "www", "@", 300, none⟩,
     ⟨"A", "api", "93.184.216.35", 300, none⟩]),
   ("email-web",
    [⟨"A", "@", "93.184.216.34", 300, none⟩,
     ⟨"CNAME", "www", "@", 300, none⟩,
     ⟨"MX", "@", "mail.example.com", 300, some 10⟩,
     ⟨"MX", "@", "mail2.example.com", 300, some 20⟩])]

/-- `getTemplate` from dns/templates.ts. -/
def getTemplate (id : String) : Option (List DnsRecord) :=
  List.lookup id templates

/-- The validated `POST /buy` body (after `BuySchema.parse`); optional
fields are `Option`. -/
structure BuyInput where
  domain : String
  years : Option Nat
  whois_privacy : Option Bool
  allow_premium : Option Bool
  allow_unicode : Option Bool
  nameserver_mode : Option String
  nameservers : Option (List String)
  dns_template_id : Option String
  quoted_total_usd : ℚ
  idempotency_key : String
deriving Repr

/-- `input.years || 1` (JS falsy default: absent or 0 become 1). -/
def yearsOf (input : BuyInput) : Nat :=
  match input.years with
  | some y => if y = 0 then 1 else y
  | none => 1

/-- `input.whois_privacy !== false`. -/
def privacyOf (input : BuyInput) : Bool := input.whois_privacy ≠ some false

/-- `input.allow_premium || false`. -/
def allowPremiumOf (input : BuyInput) : Bool := input.allow_premium = some true

/-- `input.allow_unicode || false`. -/
def allowUnicodeOf (input : BuyInput) : Bool := input.allow_unicode = some true

/-- `input.nameserver_mode || 'registrar'`. -/
def nsModeOf (input : BuyInput) : String :=
  input.nameserver_mode.getD "registrar"

/-- The normalized domain of the request. -/
def buyDomainOf (input : BuyInput) : String := normalizeDomain input.domain

/-- The idempotency key `buy:{domain}:{idempotency_key}`. -/
def buyKeyOf (input : BuyInput) : String :=
  "buy:" ++ buyDomainOf input ++ ":" ++ input.idempotency_key

/-- The request digest computed by the route. -/
def buyDigestOf (input : BuyInput) : Digest :=
  stableDigest (buyDomainOf input) (yearsOf input) (privacyOf input)
    input.quoted_total_usd

/-- Side effects of a `POST /buy` execution, in program order. -/
inductive BuyEff
  | quoteCall
  | idemBeginCall (key : String)
  | mutexAcquire (key : String)
  | serverQuoteCall
  | registerCall
  | setNameserversCall
  | applyRecordsCall (templateId : String)
  | domainUpsert (name registrar status : String)
  | purchaseCreate (registrar orderId : String) (totalUsd : ℚ)
  | auditLog (verb : String)
  | spendAdd (acct : String) (amount : ℚ)
  | idemCommit (key : String) (digest : Digest) (response : BuyResponse)
  | idemFail (key : String)
  | legacyStore (domain : String)
  | mutexRelease (key : String)
deriving DecidableEq, Repr

/-- Effects that persist rows or add spend (Domain upsert, Purchase create,
DailySpend add). -/
def isPersistEff : BuyEff → Bool
  | .domainUpsert _ _ _ => true
  | .purchaseCreate _ _ _ => true
  | .spendAdd _ _ => true
  | _ => false

/-- The HTTP outcome of the handler (`res.json` 200 body, or the error
mapped by the middleware). -/
inductive BuyOutcome
  | ok (body : BuyResponse)
  | err (status : Nat) (name : String)
deriving DecidableEq, Repr

/-- The DNS-configuration block of the guarded region (domains.ts lines
280–305): custom mode sets nameservers; otherwise the template (default
`web-basic`) must exist (`UnknownDnsTemplate`) and its records are
applied. -/
def dnsConfigStep (env : BuyEnv) (input : BuyInput) :
    Except (HttpErr × List BuyEff) (Option String × List BuyEff) :=
  if nsModeOf input = "custom" ∧ input.nameservers.isSome then
    match env.setNsResult with
    | .ok _ => .ok (none, [.setNameserversCall])
    | .error e => .error (e, [.setNameserversCall])
  else
    let templateId := input.dns_template_id.getD "web-basic"
    match getTemplate templateId with
    | none => .error (⟨400, "UnknownDnsTemplate"⟩, [])
    | some _ =>
      match env.applyRecordsResult with
      | .ok _ => .ok (some templateId, [.applyRecordsCall templateId])
      | .error e => .error (e, [.applyRecordsCall templateId])

/-- The guarded (`try`) region of the route (domains.ts lines 245–391):
fresh server quote, 0.50 USD drift check, `register` (failure result →
`ValidationError`), DNS configuration, authenticated user, then — in source
order — Domain upsert (status PURCHASED, registrar 'porkbun'), Purchase
create, `BUY_SUCCESS` audit, spend add, idempotency commit and the legacy
in-memory store. Note the Domain/Purchase/spend persistence happens **after**
the DNS step. -/
def guardedRegion (env : BuyEnv) (acct : String) (input : BuyInput)
    (key : String) (digest : Digest) :
    Except (HttpErr × List BuyEff) (BuyResponse × List BuyEff) :=
  match env.serverQuote with
  | .error e => .error (e, [.serverQuoteCall])
  | .ok sq =>
    if 1/2 < |sq.total_usd - input.quoted_total_usd| then
      .error (⟨409, "PriceDrift"⟩, [.serverQuoteCall])
    else
      match env.registerResult with
      | .error e => .error (e, [.serverQuoteCall, .registerCall])
      | .ok r =>
        if ¬ r.success = true then
          .error (⟨400, "ValidationError"⟩, [.serverQuoteCall, .registerCall])
        else
          match dnsConfigStep env input with
          | .error (e, tr) =>
            .error (e, [.serverQuoteCall, .registerCall] ++ tr)
          | .ok (appliedTemplate, tr) =>
            match env.user with
            | none =>
              .error (⟨401, "Unauthorized"⟩,
                [.serverQuoteCall, .registerCall] ++ tr)
            | some _ =>
              let domain := buyDomainOf input
              let response : BuyResponse :=
                { order_id := r.order_id,
                  charged_total_usd := r.charged_total_usd,
                  registrar := "porkbun",
                  nameserver_mode := nsModeOf input,
                  dns_template_id := appliedTemplate,
                  domainId := env.domainRecordId }
              .ok (response,
                [.serverQuoteCall, .registerCall] ++ tr ++
                [.domainUpsert domain "porkbun" "PURCHASED",
                 .purchaseCreate "porkbun" r.order_id r.charged_total_usd,
                 .auditLog "BUY_SUCCESS",
                 .spendAdd acct r.charged_total_usd,
                 .idemCommit key digest response,
                 .legacyStore domain])

/-- The `POST /buy` handler: validation and pre-checks, idempotency `begin`
(replay with digest check), mutex acquire, the guarded region with its
`catch` (idempotency `fail`, `BUY_FAIL` audit, rethrow) and `finally`
(mutex release). -/
def buyHandler (cfg : BuyConfig) (env : BuyEnv) (acct : String)
    (input : BuyInput) : BuyOutcome × List BuyEff :=
  let domain := normalizeDomain input.domain
  if ¬ isTldAllowed cfg.allowlist ⟨afterLastDot domain.data⟩ = true then
    (.err 400 "ValidationError", [])
  else if ¬ (analyzeLabelSafety (splitDomain domain).1
      (allowUnicodeOf input)).safe = true then
    (.err 400 "UnsafeLabel", [])
  else if cfg.maxPerTxn < input.quoted_total_usd then
    (.err 400 "SpendCapExceeded", [])
  else
    match env.premiumQuote with
    | .error e => (.err e.status e.name, [.quoteCall])
    | .ok quoted =>
      if quoted.premium = true ∧ ¬ allowPremiumOf input = true then
        (.err 400 "PremiumNotAllowed", [.quoteCall])
      else if cfg.maxDaily < env.todaySpent + input.quoted_total_usd then
        (.err 400 "DailyCapExceeded", [.quoteCall])
      else
        let key := buyKeyOf input
        let digest := buyDigestOf input
        match env.beginEntry with
        | some entry =>
          if ¬ entry.digest = digest then
            (.err 409 "IdempotencyMismatch", [.quoteCall, .idemBeginCall key])
          else
            (.ok entry.response, [.quoteCall, .idemBeginCall key])
        | none =>
          match guardedRegion env acct input key digest with
          | .ok (resp, gtr) =>
            (.ok resp,
             [.quoteCall, .idemBeginCall key, .mutexAcquire key] ++ gtr ++
             [.mutexRelease key])
          | .error (e, gtr) =>
            (.err e.status e.name,
             [.quoteCall, .idemBeginCall key, .mutexAcquire key] ++ gtr ++
             [.idemFail key, .auditLog "BUY_FAIL", .mutexRelease key])

theorem buyHandler_reduce (cfg : BuyConfig) (env : BuyEnv) (acct : String)
    (input : BuyInput) (q : BuyQuote)
    (hTld : isTldAllowed cfg.allowlist
      ⟨afterLastDot (normalizeDomain input.domain).data⟩ = true)
    (hSafe : (analyzeLabelSafety (splitDomain (normalizeDomain input.domain)).1
      (allowUnicodeOf input)).safe = true)
    (hTxn : input.quoted_total_usd ≤ cfg.maxPerTxn)
    (hQuote : env.premiumQuote = .ok q)
    (hPrem : q.premium = true → allowPremiumOf input = true)
    (hDaily : env.todaySpent + input.quoted_total_usd ≤ cfg.maxDaily) :
    buyHandler cfg env acct input =
      (match env.beginEntry with
       | some entry =>
         if ¬ entry.digest = buyDigestOf input then
           (.err 409 "IdempotencyMismatch",
            [.quoteCall, .idemBeginCall (buyKeyOf input)])
         else
           (.ok entry.response, [.quoteCall, .idemBeginCall (buyKeyOf input)])
       | none =>
         match guardedRegion env acct input (buyKeyOf input)
             (buyDigestOf input) with
         | .ok (resp, gtr) =>
           (.ok resp,
            [.quoteCall, .idemBeginCall (buyKeyOf input),
             .mutexAcquire (buyKeyOf input)] ++ gtr ++
            [.mutexRelease (buyKeyOf input)])
         | .error (e, gtr) =>
           (.err e.status e.name,
            [.quoteCall, .idemBeginCall (buyKeyOf input),
             .mutexAcquire (buyKeyOf input)] ++ gtr ++
            [.idemFail (buyKeyOf input), .auditLog "BUY_FAIL",
             .mutexRelease (buyKeyOf input)])) := by
  have h1 : ¬ (cfg.maxPerTxn < input.quoted_total_usd) := not_lt.mpr hTxn
  have h2 : ¬ (cfg.maxDaily < env.todaySpent + input.quoted_total_usd) :=
    not_lt.mpr hDaily
  have h3 : ¬ (q.premium = true ∧ ¬ allowPremiumOf input = true) :=
    fun hc => hc.2 (hPrem hc.1)
  simp only [buyHandler, hQuote, hTld, hSafe, h1, h2, h3, not_true,
    not_false_eq_true, if_false, if_true, ite_false, ite_true]

/-- Claim C2: when idempotency `begin` finds a non-expired entry, a matching
digest replays the stored response verbatim and a mismatch fails with HTTP
409 `IdempotencyMismatch`; in both cases the only effects are the initial
quote read and the `begin` itself — no register call, no persisted rows, no
spend added. -/
theorem c2_replay_semantics (cfg : BuyConfig) (env : BuyEnv) (acct : String)
    (input : BuyInput) (q : BuyQuote) (entry : IdemEntry)
    (hTld : isTldAllowed cfg.allowlist
      ⟨afterLastDot (normalizeDomain input.domain).data⟩ = true)
    (hSafe : (analyzeLabelSafety (splitDomain (normalizeDomain input.domain)).1
      (allowUnicodeOf input)).safe = true)
    (hTxn : input.quoted_total_usd ≤ cfg.maxPerTxn)
    (hQuote : env.premiumQuote = .ok q)
    (hPrem : q.premium = true → allowPremiumOf input = true)
    (hDaily : env.todaySpent + input.quoted_total_usd ≤ cfg.maxDaily)
    (hBegin : env.beginEntry = some entry) :
    (entry.digest = buyDigestOf input →
      buyHandler cfg env acct input =
        (.ok entry.response, [.quoteCall, .idemBeginCall (buyKeyOf input)])) ∧
    (¬ entry.digest = buyDigestOf input →
      buyHandler cfg env acct input =
        (.err 409 "IdempotencyMismatch",
         [.quoteCall, .idemBeginCall (buyKeyOf input)])) ∧
    BuyEff.registerCall ∉ (buyHandler cfg env acct input).2 ∧
    (buyHandler cfg env acct input).2.filter isPersistEff = [] := by
  have hred := buyHandler_reduce cfg env acct input q hTld hSafe hTxn hQuote
    hPrem hDaily
  simp only [hBegin] at hred
  by_cases hd : entry.digest = buyDigestOf input
  · rw [if_neg (by simp [hd])] at hred
    refine ⟨fun _ => hred, fun hc => absurd hd hc, ?_, ?_⟩
    · rw [hred]; simp
    · rw [hred]; rfl
  · rw [if_pos hd] at hred
    refine ⟨fun hc => absurd hc hd, fun _ => hred, ?_, ?_⟩
    · rw [hred]; simp
    · rw [hred]; rfl

/-- Claim C3: once the mutex is acquired, every error of the guarded region
is followed by the idempotency `fail` for the key, the `BUY_FAIL` audit, and
the mutex release, and the error itself is what the caller receives; on
success the mutex is likewise released; on both exits the release is the
final effect. -/
theorem c3_failure_cleanup (cfg : BuyConfig) (env : BuyEnv) (acct : String)
    (input : BuyInput) (q : BuyQuote)
    (hTld : isTldAllowed cfg.allowlist
      ⟨afterLastDot (normalizeDomain input.domain).data⟩ = true)
    (hSafe : (analyzeLabelSafety (splitDomain (normalizeDomain input.domain)).1
      (allowUnicodeOf input)).safe = true)
    (hTxn : input.quoted_total_usd ≤ cfg.maxPerTxn)
    (hQuote : env.premiumQuote = .ok q)
    (hPrem : q.premium = true → allowPremiumOf input = true)
    (hDaily : env.todaySpent + input.quoted_total_usd ≤ cfg.maxDaily)
    (hBegin : env.beginEntry = none) :
    (∀ e gtr, guardedRegion env acct input (buyKeyOf input)
        (buyDigestOf input) = .error (e, gtr) →
      buyHandler cfg env acct input =
        (.err e.status e.name,
         [.quoteCall, .idemBeginCall (buyKeyOf input),
          .mutexAcquire (buyKeyOf input)] ++ gtr ++
         [.idemFail (buyKeyOf input), .auditLog "BUY_FAIL",
          .mutexRelease (buyKeyOf input)])) ∧
    (∀ resp gtr, guardedRegion env acct input (buyKeyOf input)
        (buyDigestOf input) = .ok (resp, gtr) →
      buyHandler cfg env acct input =
        (.ok resp,
         [.quoteCall, .idemBeginCall (buyKeyOf input),
          .mutexAcquire (buyKeyOf input)] ++ gtr ++
         [.mutexRelease (buyKeyOf input)])) ∧
    (buyHandler cfg env acct input).2.getLast? =
      some (.mutexRelease (buyKeyOf input)) := by
  have hred := buyHandler_reduce cfg env acct input q hTld hSafe hTxn hQuote
    hPrem hDaily
  simp only [hBegin] at hred
  refine ⟨?_, ?_, ?_⟩
  · intro e gtr hg
    simp only [hg] at hred
    exact hred
  · intro resp gtr hg
    simp only [hg] at hred
    exact hred
  · rcases hg : guardedRegion env acct input (buyKeyOf input)
        (buyDigestOf input) with ⟨e, gtr⟩ | ⟨resp, gtr⟩
    · simp only [hg] at hred
      rw [hred]
      have hsplit :
          [BuyEff.quoteCall, BuyEff.idemBeginCall (buyKeyOf input),
              BuyEff.mutexAcquire (buyKeyOf input)] ++ gtr ++
            [BuyEff.idemFail (buyKeyOf input), BuyEff.auditLog "BUY_FAIL",
              BuyEff.mutexRelease (buyKeyOf input)] =
          ([BuyEff.quoteCall, BuyEff.idemBeginCall (buyKeyOf input),
              BuyEff.mutexAcquire (buyKeyOf input)] ++ gtr ++
            [BuyEff.idemFail (buyKeyOf input), BuyEff.auditLog "BUY_FAIL"]) ++
            [BuyEff.mutexRelease (buyKeyOf input)] := by
        simp
      rw [hsplit]
      exact List.getLast?_concat _
    · simp only [hg] at hred
      rw [hred]
      exact List.getLast?_concat _

/-- Claim C4: when the request reaches the guarded region and the fresh
server quote drifts from the client's quoted total by more than 0.50 USD,
the request fails with HTTP 409 `PriceDrift` and no Domain upsert and no
Purchase row creation occur. -/
theorem c4_price_drift (cfg : BuyConfig) (env : BuyEnv) (acct : String)
    (input : BuyInput) (q : BuyQuote) (sq : BuyQuote)
    (hTld : isTldAllowed cfg.allowlist
      ⟨afterLastDot (normalizeDomain input.domain).data⟩ = true)
    (hSafe : (analyzeLabelSafety (splitDomain (normalizeDomain input.domain)).1
      (allowUnicodeOf input)).safe = true)
    (hTxn : input.quoted_total_usd ≤ cfg.maxPerTxn)
    (hQuote : env.premiumQuote = .ok q)
    (hPrem : q.premium = true → allowPremiumOf input = true)
    (hDaily : env.todaySpent + input.quoted_total_usd ≤ cfg.maxDaily)
    (hBegin : env.beginEntry = none)
    (hSq : env.serverQuote = .ok sq)
    (hDrift : 1/2 < |sq.total_usd - input.quoted_total_usd|) :
    buyHandler cfg env acct input =
      (.err 409 "PriceDrift",
       [.quoteCall, .idemBeginCall (buyKeyOf input),
        .mutexAcquire (buyKeyOf input), .serverQuoteCall,
        .idemFail (buyKeyOf input), .auditLog "BUY_FAIL",
        .mutexRelease (buyKeyOf input)]) ∧
    (∀ n r s, BuyEff.domainUpsert n r s ∉ (buyHandler cfg env acct input).2) ∧
    (∀ r o a, BuyEff.purchaseCreate r o a ∉
      (buyHandler cfg env acct input).2) := by
  have hg : guardedRegion env acct input (buyKeyOf input)
      (buyDigestOf input) = .error (⟨409, "PriceDrift"⟩, [.serverQuoteCall]) := by
    simp only [guardedRegion, hSq]
    rw [if_pos hDrift]
  have hred := buyHandler_reduce cfg env acct input q hTld hSafe hTxn hQuote
    hPrem hDaily
  simp only [hBegin, hg] at hred
  refine ⟨hred, ?_, ?_⟩
  · intro n r s hmem
    rw [hred] at hmem
    simp at hmem
  · intro r o a hmem
    rw [hred] at hmem
    simp at hmem

/-- Concrete configuration for witness runs. -/
def cfgW : BuyConfig := ⟨1000, 5000, []⟩

/-- Concrete successful registration result for witness runs. -/
def regW : RegistrationResult :=
  ⟨"PB-7VQ", 12, "porkbun", "example.com", true,
   "Domain registered successfully"⟩

/-- Concrete environment of a fully successful purchase. -/
def envW : BuyEnv :=
  { providerName := "porkbun", premiumQuote := .ok ⟨12, false⟩,
    todaySpent := 0, beginEntry := none, serverQuote := .ok ⟨12, false⟩,
    registerResult := .ok regW, setNsResult := .ok (),
    applyRecordsResult := .ok (), user := some "u1", domainRecordId := "d1" }

/-- Concrete validated request body for witness runs. -/
def inputW : BuyInput :=
  { domain := "example.com", years := some 1, whois_privacy := some true,
    allow_premium := none, allow_unicode := none, nameserver_mode := none,
    nameservers := none, dns_template_id := none, quoted_total_usd := 12,
    idempotency_key := "550e8400-e29b-41d4-a716-446655440000" }

/-- Concrete stored idempotency entry for the C2 witness. -/
def entryW : IdemEntry :=
  ⟨buyDigestOf inputW, ⟨"PB-0", 12, "porkbun", "registrar", some "web-basic",
   "d0"⟩⟩

/-- Witness instantiating `c2_replay_semantics` on a stored entry whose
digest matches the request. -/
theorem c2_replay_semantics_witness :
    (entryW.digest = buyDigestOf inputW →
      buyHandler cfgW { envW with beginEntry := some entryW } "u1" inputW =
        (.ok entryW.response,
         [.quoteCall, .idemBeginCall (buyKeyOf inputW)])) ∧
    (¬ entryW.digest = buyDigestOf inputW →
      buyHandler cfgW { envW with beginEntry := some entryW } "u1" inputW =
        (.err 409 "IdempotencyMismatch",
         [.quoteCall, .idemBeginCall (buyKeyOf inputW)])) ∧
    BuyEff.registerCall ∉
      (buyHandler cfgW { envW with beginEntry := some entryW } "u1" inputW).2 ∧
    (buyHandler cfgW { envW with beginEntry := some entryW }
      "u1" inputW).2.filter isPersistEff = [] :=
  c2_replay_semantics cfgW { envW with beginEntry := some entryW } "u1"
    inputW ⟨12, false⟩ entryW (by decide) (by decide) (by decide) rfl
    (by decide) (by norm_num [envW, cfgW, inputW]) rfl

/-- Witness instantiating `c3_failure_cleanup` on a run whose guarded region
fails at the fresh quote. -/
theorem c3_failure_cleanup_witness :
    buyHandler cfgW { envW with serverQuote := .error ⟨500, "TLD_NOT_SUPPORTED"⟩ }
      "u1" inputW =
      (.err 500 "TLD_NOT_SUPPORTED",
       [.quoteCall, .idemBeginCall (buyKeyOf inputW),
        .mutexAcquire (buyKeyOf inputW), .serverQuoteCall,
        .idemFail (buyKeyOf inputW), .auditLog "BUY_FAIL",
        .mutexRelease (buyKeyOf inputW)]) :=
  (c3_failure_cleanup cfgW
      { envW with serverQuote := .error ⟨500, "TLD_NOT_SUPPORTED"⟩ } "u1"
      inputW ⟨12, false⟩ (by decide) (by decide) (by decide) rfl (by decide)
      (by norm_num [envW, cfgW, inputW]) rfl).1
    ⟨500, "TLD_NOT_SUPPORTED"⟩ [.serverQuoteCall] rfl

/-- Witness instantiating `c4_price_drift` at a server quote of 13 USD
against a client quote of 12 USD. -/
theorem c4_price_drift_witness :
    buyHandler cfgW { envW with serverQuote := .ok ⟨13, false⟩ } "u1" inputW =
      (.err 409 "PriceDrift",
       [.quoteCall, .idemBeginCall (buyKeyOf inputW),
        .mutexAcquire (buyKeyOf inputW), .serverQuoteCall,
        .idemFail (buyKeyOf inputW), .auditLog "BUY_FAIL",
        .mutexRelease (buyKeyOf inputW)]) :=
  (c4_price_drift cfgW { envW with serverQuote := .ok ⟨13, false⟩ } "u1"
    inputW ⟨12, false⟩ ⟨13, false⟩ (by decide) (by decide) (by decide) rfl
    (by decide) (by norm_num [envW, cfgW, inputW]) rfl rfl
    (by norm_num [inputW])).1

/-- Environment whose `applyRecords` fails after a successful registration,
for claim C8. -/
def envC8 : BuyEnv :=
  { envW with applyRecordsResult :=
      Except.error ⟨500, "DNS_APPLY_PARTIAL_FAILURE"⟩ }

/-- Claim C8 as stated is false: in registrar mode, when `applyRecords`
fails after a successful `register`, the run ends in the DNS error with the
`register` call in its trace but with **no** Domain upsert, no Purchase
creation and no spend addition — persistence happens only after the DNS
step, so nothing has been committed when the DNS error is raised. -/
theorem c8_counterexample :
    (buyHandler cfgW envC8 "u1" inputW).1 =
      .err 500 "DNS_APPLY_PARTIAL_FAILURE" ∧
    BuyEff.registerCall ∈ (buyHandler cfgW envC8 "u1" inputW).2 ∧
    (buyHandler cfgW envC8 "u1" inputW).2.filter isPersistEff = [] := by
  have hg : guardedRegion envC8 "u1" inputW (buyKeyOf inputW)
      (buyDigestOf inputW) =
      .error (⟨500, "DNS_APPLY_PARTIAL_FAILURE"⟩,
        [.serverQuoteCall, .registerCall, .applyRecordsCall "web-basic"]) := by
    simp [guardedRegion,
      show envC8.serverQuote = Except.ok ⟨12, false⟩ from rfl,
      show envC8.registerResult = Except.ok regW from rfl,
      show dnsConfigStep envC8 inputW =
        .error (⟨500, "DNS_APPLY_PARTIAL_FAILURE"⟩,
          [.applyRecordsCall "web-basic"]) from rfl,
      show regW.success = true from rfl]
    norm_num [inputW]
  have hred := buyHandler_reduce cfgW envC8 "u1" inputW ⟨12, false⟩
    (by decide) (by decide) (by decide) rfl (by decide)
    (by norm_num [envC8, envW, cfgW, inputW])
  simp only [show envC8.beginEntry = none from rfl, hg] at hred
  refine ⟨?_, ?_, ?_⟩
  · rw [hred]
  · rw [hred]; simp
  · rw [hred]; rfl

/-- Claim C8 amended: in registrar mode, when `applyRecords` fails after a
successful `register`, the DNS error is raised **before** the Domain row is
persisted and before spend is added: the handler clears the idempotency
entry and propagates the error, and the trace contains the register call but
no Domain upsert, no Purchase creation and no spend addition — the purchase
is not committed (only the upstream registrar-side registration happened). -/
theorem c8_amended (cfg : BuyConfig) (env : BuyEnv) (acct : String)
    (input : BuyInput) (q : BuyQuote) (sq : BuyQuote)
    (r : RegistrationResult) (e : HttpErr)
    (hTld : isTldAllowed cfg.allowlist
      ⟨afterLastDot (normalizeDomain input.domain).data⟩ = true)
    (hSafe : (analyzeLabelSafety (splitDomain (normalizeDomain input.domain)).1
      (allowUnicodeOf input)).safe = true)
    (hTxn : input.quoted_total_usd ≤ cfg.maxPerTxn)
    (hQuote : env.premiumQuote = .ok q)
    (hPrem : q.premium = true → allowPremiumOf input = true)
    (hDaily : env.todaySpent + input.quoted_total_usd ≤ cfg.maxDaily)
    (hBegin : env.beginEntry = none)
    (hSq : env.serverQuote = .ok sq)
    (hNoDrift : |sq.total_usd - input.quoted_total_usd| ≤ 1/2)
    (hReg : env.registerResult = .ok r)
    (hSucc : r.success = true)
    (hMode : ¬ (nsModeOf input = "custom" ∧ input.nameservers.isSome = true))
    (hTmpl : (getTemplate (input.dns_template_id.getD "web-basic")).isSome =
      true)
    (hApply : env.applyRecordsResult = .error e) :
    buyHandler cfg env acct input =
      (.err e.status e.name,
       [.quoteCall, .idemBeginCall (buyKeyOf input),
        .mutexAcquire (buyKeyOf input), .serverQuoteCall, .registerCall,
        .applyRecordsCall (input.dns_template_id.getD "web-basic"),
        .idemFail (buyKeyOf input), .auditLog "BUY_FAIL",
        .mutexRelease (buyKeyOf input)]) ∧
    BuyEff.registerCall ∈ (buyHandler cfg env acct input).2 ∧
    (buyHandler cfg env acct input).2.filter isPersistEff = [] := by
  obtain ⟨recs, hrecs⟩ := Option.isSome_iff_exists.mp hTmpl
  have hdns : dnsConfigStep env input =
      .error (e, [.applyRecordsCall (input.dns_template_id.getD "web-basic")]) := by
    simp only [dnsConfigStep]
    rw [if_neg hMode]
    simp only [hrecs, hApply]
  have hnd : ¬ (1/2 < |sq.total_usd - input.quoted_total_usd|) :=
    not_lt.mpr hNoDrift
  have hg : guardedRegion env acct input (buyKeyOf input)
      (buyDigestOf input) =
      .error (e, [.serverQuoteCall, .registerCall,
        .applyRecordsCall (input.dns_template_id.getD "web-basic")]) := by
    simp only [guardedRegion, hSq, hReg, hdns]
    rw [if_neg hnd, if_neg (by simp [hSucc])]
    rfl
  have hred := buyHandler_reduce cfg env acct input q hTld hSafe hTxn hQuote
    hPrem hDaily
  simp only [hBegin, hg] at hred
  refine ⟨hred, ?_, ?_⟩
  · rw [hred]; simp
  · rw [hred]; rfl

/-- Witness instantiating `c8_amended` on the concrete DNS-failure run. -/
theorem c8_amended_witness :
    buyHandler cfgW envC8 "u1" inputW =
      (.err 500 "DNS_APPLY_PARTIAL_FAILURE",
       [.quoteCall, .idemBeginCall (buyKeyOf inputW),
        .mutexAcquire (buyKeyOf inputW), .serverQuoteCall, .registerCall,
        .applyRecordsCall (inputW.dns_template_id.getD "web-basic"),
        .idemFail (buyKeyOf inputW), .auditLog "BUY_FAIL",
        .mutexRelease (buyKeyOf inputW)]) :=
  (c8_amended cfgW envC8 "u1" inputW ⟨12, false⟩ ⟨12, false⟩ regW
    ⟨500, "DNS_APPLY_PARTIAL_FAILURE"⟩ (by decide) (by decide) (by decide)
    rfl (by decide) (by norm_num [envC8, envW, cfgW, inputW]) rfl rfl
    (by norm_num [inputW]) rfl rfl (by decide) (by decide) rfl).1

theorem dnsConfigStep_ok_shape (env : BuyEnv) (input : BuyInput)
    (t : Option String) (tr : List BuyEff)
    (h : dnsConfigStep env input = .ok (t, tr)) :
    tr = [.setNameserversCall] ∨ ∃ id, tr = [.applyRecordsCall id] := by
  simp only [dnsConfigStep] at h
  split at h
  · split at h
    · simp only [Except.ok.injEq, Prod.mk.injEq] at h
      exact Or.inl h.2.symm
    · simp at h
  · split at h
    · simp at h
    · split at h
      · simp only [Except.ok.injEq, Prod.mk.injEq] at h
        exact Or.inr ⟨input.dns_template_id.getD "web-basic", h.2.symm⟩
      · simp at h

theorem guardedRegion_ok_shape (env : BuyEnv) (acct : String)
    (input : BuyInput) (key : String) (digest : Digest) (resp : BuyResponse)
    (gtr : List BuyEff)
    (h : guardedRegion env acct input key digest = .ok (resp, gtr)) :
    resp.registrar = "porkbun" ∧
    ∃ r tr, env.registerResult = .ok r ∧
      dnsConfigStep env input = .ok (resp.dns_template_id, tr) ∧
      gtr = [.serverQuoteCall, .registerCall] ++ tr ++
        [.domainUpsert (buyDomainOf input) "porkbun" "PURCHASED",
         .purchaseCreate "porkbun" r.order_id r.charged_total_usd,
         .auditLog "BUY_SUCCESS", .spendAdd acct r.charged_total_usd,
         .idemCommit key digest resp, .legacyStore (buyDomainOf input)] := by
  simp only [guardedRegion] at h
  split at h
  · simp at h
  · split at h
    · simp at h
    · split at h
      · simp at h
      next r hr =>
        split at h
        · simp at h
        · split at h
          · simp at h
          next t tr hdns =>
            split at h
            · simp at h
            · simp only [Except.ok.injEq, Prod.mk.injEq] at h
              obtain ⟨hresp, hgtr⟩ := h
              subst hresp
              exact ⟨rfl, r, tr, hr, by simpa using hdns, hgtr.symm⟩

/-- Claim C10: on every fresh successful `POST /buy`, the response body's
`registrar`, the Domain upsert's registrar column and the Purchase row's
registrar column are all the literal `"porkbun"`, whatever driver
`DEFAULT_PROVIDER` selected (the environment, including `providerName`, is
universally quantified and the route writes the literal). -/
theorem c10_registrar_constant (cfg : BuyConfig) (env : BuyEnv)
    (acct : String) (input : BuyInput) (q : BuyQuote) (resp : BuyResponse)
    (gtr : List BuyEff)
    (hTld : isTldAllowed cfg.allowlist
      ⟨afterLastDot (normalizeDomain input.domain).data⟩ = true)
    (hSafe : (analyzeLabelSafety (splitDomain (normalizeDomain input.domain)).1
      (allowUnicodeOf input)).safe = true)
    (hTxn : input.quoted_total_usd ≤ cfg.maxPerTxn)
    (hQuote : env.premiumQuote = .ok q)
    (hPrem : q.premium = true → allowPremiumOf input = true)
    (hDaily : env.todaySpent + input.quoted_total_usd ≤ cfg.maxDaily)
    (hBegin : env.beginEntry = none)
    (hOk : guardedRegion env acct input (buyKeyOf input)
      (buyDigestOf input) = .ok (resp, gtr)) :
    buyHandler cfg env acct input =
      (.ok resp,
       [.quoteCall, .idemBeginCall (buyKeyOf input),
        .mutexAcquire (buyKeyOf input)] ++ gtr ++
       [.mutexRelease (buyKeyOf input)]) ∧
    resp.registrar = "porkbun" ∧
    BuyEff.domainUpsert (buyDomainOf input) "porkbun" "PURCHASED" ∈ gtr ∧
    (∃ oid amt, BuyEff.purchaseCreate "porkbun" oid amt ∈ gtr) ∧
    (∀ n rg s, BuyEff.domainUpsert n rg s ∈ gtr → rg = "porkbun") ∧
    (∀ rg o a, BuyEff.purchaseCreate rg o a ∈ gtr → rg = "porkbun") := by
  obtain ⟨hreg, r, tr, hr, hdns, hgtr⟩ :=
    guardedRegion_ok_shape env acct input (buyKeyOf input)
      (buyDigestOf input) resp gtr hOk
  have hdshape := dnsConfigStep_ok_shape env input resp.dns_template_id tr
    hdns
  have hred := buyHandler_reduce cfg env acct input q hTld hSafe hTxn hQuote
    hPrem hDaily
  simp only [hBegin, hOk] at hred
  subst hgtr
  refine ⟨hred, hreg, by simp, ⟨r.order_id, r.charged_total_usd, by simp⟩,
    ?_, ?_⟩
  · intro n rg s hmem
    rcases hdshape with htr | ⟨id, htr⟩ <;> subst htr <;> simp at hmem <;>
      exact hmem.2.1
  · intro rg o a hmem
    rcases hdshape with htr | ⟨id, htr⟩ <;> subst htr <;> simp at hmem <;>
      exact hmem.1

/-- The response of the concrete successful run. -/
def respWOk : BuyResponse :=
  ⟨"PB-7VQ", 12, "porkbun", "registrar", some "web-basic", "d1"⟩

/-- The guarded-region trace of the concrete successful run. -/
def gtrWOk : List BuyEff :=
  [.serverQuoteCall, .registerCall, .applyRecordsCall "web-basic",
   .domainUpsert "example.com" "porkbun" "PURCHASED",
   .purchaseCreate "porkbun" "PB-7VQ" 12, .auditLog "BUY_SUCCESS",
   .spendAdd "u1" 12,
   .idemCommit (buyKeyOf inputW) (buyDigestOf inputW) respWOk,
   .legacyStore "example.com"]

/-- Witness instantiating `c10_registrar_constant` on the concrete
successful run. -/
theorem c10_registrar_constant_witness :
    buyHandler cfgW envW "u1" inputW =
      (.ok respWOk,
       [.quoteCall, .idemBeginCall (buyKeyOf inputW),
        .mutexAcquire (buyKeyOf inputW)] ++ gtrWOk ++
       [.mutexRelease (buyKeyOf inputW)]) ∧
    respWOk.registrar = "porkbun" ∧
    BuyEff.domainUpsert (buyDomainOf inputW) "porkbun" "PURCHASED" ∈ gtrWOk ∧
    (∃ oid amt, BuyEff.purchaseCreate "porkbun" oid amt ∈ gtrWOk) ∧
    (∀ n rg s, BuyEff.domainUpsert n rg s ∈ gtrWOk → rg = "porkbun") ∧
    (∀ rg o a, BuyEff.purchaseCreate rg o a ∈ gtrWOk → rg = "porkbun") :=
  c10_registrar_constant cfgW envW "u1" inputW ⟨12, false⟩ respWOk gtrWOk
    (by decide) (by decide) (by decide) rfl (by decide)
    (by norm_num [envW, cfgW, inputW]) rfl
    (by
      simp [guardedRegion,
        show envW.serverQuote = Except.ok ⟨12, false⟩ from rfl,
        show envW.registerResult = Except.ok regW from rfl,
        show envW.user = some "u1" from rfl,
        show dnsConfigStep envW inputW =
          .ok (some "web-basic", [.applyRecordsCall "web-basic"]) from rfl,
        show regW.success = true from rfl,
        show regW.order_id = "PB-7VQ" from rfl,
        show regW.charged_total_usd = 12 from rfl,
        show envW.domainRecordId = "d1" from rfl,
        show nsModeOf inputW = "registrar" from rfl,
        show buyDomainOf inputW = "example.com" from rfl,
        respWOk, gtrWOk]
      norm_num [inputW])

/-! ### Concurrent duplicate purchases sharing one idempotency key (C1)

A small-step model of two concurrent `POST /buy` requests sharing one
idempotency key, under fixed external conditions in which each request
passes every pre-check, sees no price drift, and registers successfully.
Atomic steps are await points of the route: idempotency `begin`
(`repo.idemBegin` is a pure read — it reserves nothing), mutex `acquire`
(`IdempotencyStore.acquire` waits while `locks` has the key), provider
`register` (`randomUUID` modelled by a distinct order id per request),
idempotency `commit` (`repo.idemCommit` upsert), and respond-and-release
(the `finally`). Coarsening several await points into one atomic step only
removes interleavings, so every behavior of this machine is a behavior of
the source. -/

/-- Control point of one request inside the handler. -/
inductive RPhase
  | atBegin
  | atAcquire
  | atRegister
  | atCommit (orderId : String)
  | atRespond (orderId : String)
  | done (body : BuyResponse)
deriving DecidableEq, Repr

/-- Shared state: the `Idem` row for the common key, the in-process lock,
the log of issued register calls, and both requests' phases. -/
structure MState where
  table : Option IdemEntry
  lockHeld : Bool
  registers : List String
  reqA : RPhase
  reqB : RPhase
deriving DecidableEq, Repr

/-- The response a request builds from its order id (the remaining fields
are fixed by the common environment of the scenario). -/
def mkResp (orderId : String) : BuyResponse :=
  ⟨orderId, 12, "porkbun", "registrar", some "web-basic", "d1"⟩

/-- The shared request digest of the scenario (both requests carry identical
bodies). -/
def digest0 : Digest := ⟨"example.com", 1, true, 12⟩

/-- One atomic step of one request: `atBegin` reads the table (a non-expired
row replays its stored response, none proceeds — no reservation is
written); `atAcquire` blocks while the lock is held, else takes it;
`atRegister` issues the provider register call; `atCommit` upserts the Idem
row; `atRespond` returns the built response and releases the mutex. -/
def stepReq (orderId : String) (ph : RPhase) (table : Option IdemEntry)
    (lockHeld : Bool) (registers : List String) :
    RPhase × Option IdemEntry × Bool × List String :=
  match ph with
  | .atBegin =>
    match table with
    | some entry => (.done entry.response, table, lockHeld, registers)
    | none => (.atAcquire, table, lockHeld, registers)
  | .atAcquire =>
    if lockHeld then (.atAcquire, table, lockHeld, registers)
    else (.atRegister, table, true, registers)
  | .atRegister =>
    (.atCommit orderId, table, lockHeld, registers ++ [orderId])
  | .atCommit oid =>
    (.atRespond oid, some ⟨digest0, mkResp oid⟩, lockHeld, registers)
  | .atRespond oid => (.done (mkResp oid), table, false, registers)
  | .done b => (.done b, table, lockHeld, registers)

/-- Scheduler step: `false` runs request A, `true` runs request B. -/
def mstep (s : MState) (i : Bool) : MState :=
  if i then
    match stepReq "OID-B" s.reqB s.table s.lockHeld s.registers with
    | (ph, t, l, regs) =>
      { table := t, lockHeld := l, registers := regs, reqA := s.reqA,
        reqB := ph }
  else
    match stepReq "OID-A" s.reqA s.table s.lockHeld s.registers with
    | (ph, t, l, regs) =>
      { table := t, lockHeld := l, registers := regs, reqA := ph,
        reqB := s.reqB }

/-- Run a schedule from the initial state (empty table, free lock). -/
def runSchedule (sched : List Bool) : MState :=
  sched.foldl mstep ⟨none, false, [], .atBegin, .atBegin⟩

/-- Claim C1 fails on the code: in the interleaving where both requests
execute `begin` before either commits (begin is a pure read and there is no
idempotency re-check after the mutex is acquired), the mutex serializes the
guarded regions yet **both** requests issue the provider `register` call and
the two callers observe different response bodies with different order ids.
In the fully sequential schedule, by contrast, the second request replays
the stored response and only one register is issued — confirming the model
replays correctly when `begin` happens after the commit. -/
theorem c1_double_register_run :
    (runSchedule [false, true, false, false, false, false, true, true, true,
      true]).registers = ["OID-A", "OID-B"] ∧
    (runSchedule [false, true, false, false, false, false, true, true, true,
      true]).reqA = .done (mkResp "OID-A") ∧
    (runSchedule [false, true, false, false, false, false, true, true, true,
      true]).reqB = .done (mkResp "OID-B") ∧
    mkResp "OID-A" ≠ mkResp "OID-B" ∧
    (runSchedule [false, false, false, false, false, true, true, true, true,
      true]).registers = ["OID-A"] ∧
    (runSchedule [false, false, false, false, false, true, true, true, true,
      true]).reqB = .done (mkResp "OID-A") := by decide
